import Mathlib

/-!
Verification of the winnow-regex boundary logic: an anchored, single-shot
regex match adapter over an incremental stream.  The embedding follows
`src/lib.rs`, `src/regex_trait.rs` and `src/bytes.rs`: the external regex
engine is modelled at its interface (the `Regex` trait), streams are the
buffered suffix plus the two partial-mode flags, and the core classifier
`captures_impl` is translated statement by statement.
-/

namespace WinnowRegex

/-- Capture group locations filled by one match attempt.  Models the
`CaptureLocations` trait of `src/regex_trait.rs`: `get i` is `none` both when
`i` is out of range and when group `i` did not participate in the match, and
`len` is the fixed group count of the pattern. -/
structure CaptureLocs where
  groups : List (Option (Nat × Nat))
deriving Repr, DecidableEq

/-- Models `CaptureLocations::get`: bounds of group `i`, or `none`. -/
def CaptureLocs.get (l : CaptureLocs) (i : Nat) : Option (Nat × Nat) :=
  (l.groups.get? i).join

/-- Models `CaptureLocations::len`: the group count. -/
def CaptureLocs.len (l : CaptureLocs) : Nat :=
  l.groups.length

/-- The engine capability contract (the `Regex` trait in `src/regex_trait.rs`):
`captures_read` searches the haystack for the first match, returning its
bounds `(start, end)` together with the filled capture locations, or `none`
when the pattern matches nowhere.  The concrete engine is external to the
repository; it enters the development only through this interface. -/
structure RegexModel (α : Type) where
  captures_read : List α → Option ((Nat × Nat) × CaptureLocs)

/-- Engine contract assumed of the external matcher (spec of the engine
interface): on a match, group 0 of the filled locations is exactly the whole
match, and the match bounds are ordered and lie within the haystack. -/
def RegexModel.WF (re : RegexModel α) : Prop :=
  ∀ hay m locs, re.captures_read hay = some (m, locs) →
    locs.get 0 = some m ∧ m.1 ≤ m.2 ∧ m.2 ≤ hay.length

/-- Stream state visible to `captures_impl`: the unconsumed buffer
(`peek_finish` view, whose length is `eof_offset`), the type-level
`is_partial_supported` flag, and the runtime partial-mode flag returned by
`StreamIsPartial`. -/
structure Stream (α : Type) where
  buf : List α
  partialSupported : Bool
  isIncomplete : Bool
deriving Repr, DecidableEq

/-- Match-time failures: `incomplete` models `E::incomplete(input,
Needed::Unknown)`, `noMatch` models `ParserError::from_input(input)`. -/
inductive ParseError where
  | incomplete
  | noMatch
deriving Repr, DecidableEq

/-- Models the `Captures` struct of `src/lib.rs`: the matched slice plus the
capture locations of the successful attempt. -/
structure Captures (α : Type) where
  slice : List α
  locs : CaptureLocs
deriving Repr, DecidableEq

/-- Models `<Captures as AsRef>::as_ref` (src/lib.rs lines 89-97): the plain
view of the whole matched slice. -/
def Captures.as_ref (c : Captures α) : List α :=
  c.slice

/-- Models `<Captures as Index<usize>>::index` (src/lib.rs lines 99-113):
the substring `slice[start..end]` of group `i`; the single
`panic!("index out of bounds")` is reached whenever `locs.get i` is `none`,
and is modelled as the error value carrying the panic message. -/
def Captures.index (c : Captures α) (i : Nat) : Except String (List α) :=
  match c.locs.get i with
  | some (s, e) => .ok ((c.slice.drop s).take (e - s))
  | none => .error "index out of bounds"

/-- The core anchored-match classifier `captures_impl` (src/lib.rs lines
252-279).  `psup` is the `PARTIAL` const generic.  The returned stream is the
final state of the `&mut input` argument: only `next_slice` on the success
path advances it. -/
def captures_impl (psup : Bool) (re : RegexModel α) (input : Stream α) :
    Except ParseError (Captures α) × Stream α :=
  match re.captures_read input.buf with
  | some ((start, stop), locs) =>
    if start = 0 then
      if psup && input.isIncomplete && decide (input.buf.length = stop) then
        (.error .incomplete, input)
      else
        (.ok { slice := input.buf.take stop, locs := locs },
         { input with buf := input.buf.drop stop })
    else if psup && input.isIncomplete then
      (.error .incomplete, input)
    else
      (.error .noMatch, input)
  | none =>
    if psup && input.isIncomplete then
      (.error .incomplete, input)
    else
      (.error .noMatch, input)

/-- Models `RegexParser::parse_next` (src/lib.rs lines 131-138): dispatch on
`is_partial_supported`, then keep only the matched slice of the captures. -/
def RegexParser.parse_next (re : RegexModel α) (input : Stream α) :
    Except ParseError (List α) × Stream α :=
  let r := if input.partialSupported then captures_impl true re input
           else captures_impl false re input
  (r.1.map (fun caps => caps.slice), r.2)

/-- Models `CapturesParser::parse_next` (src/lib.rs lines 158-167): dispatch
on `is_partial_supported`, returning the full captures result. -/
def CapturesParser.parse_next (re : RegexModel α) (input : Stream α) :
    Except ParseError (Captures α) × Stream α :=
  if input.partialSupported then captures_impl true re input
  else captures_impl false re input

/-! Compilation tier (src/lib.rs lines 41-79 and 205-250, src/bytes.rs lines
10-38).  The pattern compiler of the engine (`regex::Regex::new`) is external; it
is passed in as `compile`, returning either a compiled matcher or the
syntax diagnostic of the engine,  of type `ε`. -/

/-- Models the crate error enum `Error` (src/lib.rs lines 14-18): wraps the
engine diagnostic via the `#[from]` conversion. -/
inductive Error (ε : Type) where
  | Regex : ε → Error ε
deriving Repr, DecidableEq

/-- Outcome of code that may panic: either the value, or a panic carrying the
panic message. -/
inductive PanicOr (α : Type) where
  | panicked : String → PanicOr α
  | ok : α → PanicOr α
deriving Repr, DecidableEq

/-- Models `<&str as RegexPattern>::try_into_regex` (src/lib.rs lines 41-49,
likewise the `String` impl): `Ok(Regex::new(self)?)`, wrapping the engine
diagnostic into the crate error; plain result-returning control flow. -/
def str_try_into_regex (compile : String → Except ε (RegexModel α))
    (pat : String) : Except (Error ε) (RegexModel α) :=
  match compile pat with
  | .ok re => .ok re
  | .error e => .error (.Regex e)

/-- Models `<regex::Regex as RegexPattern>::try_into_regex` (src/lib.rs lines
61-79, likewise the bytes impl): an already-compiled matcher is returned
unchanged, always `Ok`. -/
def compiled_try_into_regex (ε : Type) (re : RegexModel α) :
    Except (Error ε) (RegexModel α) :=
  .ok re

/-- Models the eager constructors `regex` and `captures` (src/lib.rs lines
205-250): `re.try_into_regex().expect("regex compile error")`, panicking on a
compilation error. -/
def regex_ctor (compile : String → Except ε (RegexModel α))
    (pat : String) : PanicOr (RegexModel α) :=
  match str_try_into_regex compile pat with
  | .ok re => .ok re
  | .error _ => .panicked "regex compile error"

/-- Models `BytesRegexPattern::into_regex` (src/bytes.rs lines 20-28), used by
the bytes variants of `regex` and `captures`:
`try_into_regex().unwrap_or_else(|e| panic!(...))`. -/
def bytes_into_regex (compile : String → Except ε (RegexModel α))
    (pat : String) : PanicOr (RegexModel α) :=
  match str_try_into_regex compile pat with
  | .ok re => .ok re
  | .error _ => .panicked "failed to compile regex for bytes parser"

/-! Concrete engine instances used to exercise the theorems on the specification
test scenarios.  Tokens are byte values; digits are the byte codes 48-57. -/

/-- Token predicate for a decimal digit byte. -/
def isDigitTok (n : Nat) : Bool :=
  decide (48 ≤ n ∧ n ≤ 57)

/-- First maximal run of digit tokens at or after index `i`: the leftmost
match of the pattern `\d+`. -/
def digitRunFrom : List Nat → Nat → Option (Nat × Nat)
  | [], _ => none
  | c :: rest, i =>
    if isDigitTok c then
      some (i, i + 1 + (rest.takeWhile isDigitTok).length)
    else
      digitRunFrom rest (i + 1)

/-- Concrete engine instance behaving like the pattern `\d+` over bytes:
group 0 is the whole match and there are no other groups. -/
def digitsRe : RegexModel Nat :=
  { captures_read := fun hay =>
      (digitRunFrom hay 0).map (fun m => (m, ⟨[some m]⟩)) }

/-- Concrete engine instance behaving like a pattern that matches the empty
string at the start of every haystack. -/
def emptyRe : RegexModel Nat :=
  { captures_read := fun _ => some ((0, 0), ⟨[some (0, 0)]⟩) }

/-- Concrete engine instance matching any single leading token. -/
def anyTokRe : RegexModel Nat :=
  { captures_read := fun hay =>
      if 1 ≤ hay.length then some ((0, 1), ⟨[some (0, 1)]⟩) else none }

/-- A captures value whose group 1 did not participate (locations as the
engine fills them for a pattern like `1(x)?` matching `11`). -/
def capsWithGap : Captures Nat :=
  { slice := [49, 49], locs := ⟨[some (0, 2), none]⟩ }

/-- A concrete engine pattern compiler for the compilation-tier theorems:
accepts exactly the pattern accepted by `anyTokRe` and reports a diagnostic
string otherwise. -/
def toyCompile (pat : String) : Except String (RegexModel Nat) :=
  if pat = "." then .ok anyTokRe else .error "regex parse error"

/-! Helper lemmas characterising the three outcomes of `captures_impl`. -/

/-- An offset-0 match that does not trip the incomplete guard yields the
split of the buffer at the match end. -/
theorem captures_impl_match_ok (psup : Bool) (re : RegexModel α)
    (input : Stream α) (stop : Nat) (locs : CaptureLocs)
    (hm : re.captures_read input.buf = some ((0, stop), locs))
    (hnc : ¬(psup = true ∧ input.isIncomplete = true ∧ input.buf.length = stop)) :
    captures_impl psup re input =
      (.ok { slice := input.buf.take stop, locs := locs },
       { input with buf := input.buf.drop stop }) := by
  have hb : (psup && input.isIncomplete && decide (input.buf.length = stop)) = false := by
    by_contra hcon
    rw [Bool.not_eq_false, Bool.and_eq_true, Bool.and_eq_true,
      decide_eq_true_eq] at hcon
    exact hnc ⟨hcon.1.1, hcon.1.2, hcon.2⟩
  unfold captures_impl
  simp [hm, hb]

/-- When no match is found, or the first match starts after offset 0, the
outcome is `incomplete` under the partial guard and `noMatch` otherwise, with
the stream untouched. -/
theorem captures_impl_no_anchor (psup : Bool) (re : RegexModel α)
    (input : Stream α)
    (h : ∀ s e locs, re.captures_read input.buf = some ((s, e), locs) → s ≠ 0) :
    captures_impl psup re input =
      (if psup && input.isIncomplete then (.error .incomplete, input)
       else (.error .noMatch, input)) := by
  unfold captures_impl
  cases hre : re.captures_read input.buf with
  | none => rfl
  | some p =>
    obtain ⟨⟨start, stop⟩, locs⟩ := p
    dsimp only
    rw [if_neg (h start stop locs hre)]

/-- An offset-0 match reaching the current end of an incomplete partial
buffer is classified `incomplete` with the stream untouched. -/
theorem captures_impl_touches_end (re : RegexModel α) (input : Stream α)
    (locs : CaptureLocs) (hinc : input.isIncomplete = true)
    (hm : re.captures_read input.buf = some ((0, input.buf.length), locs)) :
    captures_impl true re input = (.error .incomplete, input) := by
  unfold captures_impl
  simp [hm, hinc]

/-- Inversion: a successful run of `captures_impl` comes from an offset-0
match, the slice is the buffer prefix of the match length, and the output
stream is the corresponding suffix. -/
theorem captures_impl_ok_inv (psup : Bool) (re : RegexModel α)
    (input : Stream α) (caps : Captures α) (s2 : Stream α)
    (h : captures_impl psup re input = (.ok caps, s2)) :
    ∃ stop, re.captures_read input.buf = some ((0, stop), caps.locs) ∧
      caps.slice = input.buf.take stop ∧
      s2 = { input with buf := input.buf.drop stop } := by
  revert h
  unfold captures_impl
  cases hre : re.captures_read input.buf with
  | none =>
    intro h
    by_cases hc : (psup && input.isIncomplete) = true <;>
        simp only [hc, if_true, if_false, Bool.false_eq_true] at h <;>
      exact absurd (congrArg Prod.fst h) (by simp)
  | some p =>
    obtain ⟨⟨start, stop⟩, locs⟩ := p
    intro h
    dsimp only at h
    by_cases hstart : start = 0
    · subst hstart
      rw [if_pos rfl] at h
      by_cases hc : (psup && input.isIncomplete && decide (input.buf.length = stop)) = true
      · rw [if_pos hc] at h
        exact absurd h (by simp)
      · rw [if_neg hc] at h
        rw [Prod.mk.injEq, Except.ok.injEq] at h
        exact ⟨stop, by rw [← h.1], by rw [← h.1], h.2.symm⟩
    · rw [if_neg hstart] at h
      by_cases hc : (psup && input.isIncomplete) = true <;>
          simp only [hc, if_true, if_false, Bool.false_eq_true] at h <;>
        exact absurd (congrArg Prod.fst h) (by simp)

/-- The `is_partial_supported` dispatch in `CapturesParser::parse_next` is
the same as passing the own flag of the stream as the `PARTIAL` const generic. -/
theorem captures_parse_next_eq (re : RegexModel α) (input : Stream α) :
    CapturesParser.parse_next re input =
      captures_impl input.partialSupported re input := by
  unfold CapturesParser.parse_next
  cases h : input.partialSupported <;> simp [h]

/-- Likewise for `RegexParser::parse_next`, which additionally keeps only the
slice of the captures result. -/
theorem regex_parse_next_eq (re : RegexModel α) (input : Stream α) :
    RegexParser.parse_next re input =
      ((captures_impl input.partialSupported re input).1.map (fun caps => caps.slice),
       (captures_impl input.partialSupported re input).2) := by
  unfold RegexParser.parse_next
  cases h : input.partialSupported <;> simp [h]

/-! The claims. -/

/-- C1: for every pattern and complete (non-partial-capable) input `S` whose
first match sits at offset 0 with length `L`, both adapters succeed, return
the slice `S[0:L]`, and advance the stream so the remaining input is
`S[L:]`. -/
theorem C1_complete_offset0_match (re : RegexModel α) (S : Stream α)
    (L : Nat) (locs : CaptureLocs)
    (hps : S.partialSupported = false)
    (hm : re.captures_read S.buf = some ((0, L), locs)) :
    RegexParser.parse_next re S =
      (.ok (S.buf.take L), { S with buf := S.buf.drop L }) ∧
    CapturesParser.parse_next re S =
      (.ok { slice := S.buf.take L, locs := locs },
       { S with buf := S.buf.drop L }) := by
  have himpl := captures_impl_match_ok false re S L locs hm (by simp)
  rw [captures_parse_next_eq, regex_parse_next_eq, hps, himpl]
  simp [hps, Except.map]

/-- Witness for C1 at specification scenario 1: the digit pattern on the
complete input "42abc" (bytes) succeeds with "42", leaving "abc". -/
theorem C1_complete_offset0_match_witness :
    RegexParser.parse_next digitsRe ⟨[52, 50, 97, 98, 99], false, false⟩ =
      (.ok [52, 50], ⟨[97, 98, 99], false, false⟩) ∧
    CapturesParser.parse_next digitsRe ⟨[52, 50, 97, 98, 99], false, false⟩ =
      (.ok ⟨[52, 50], ⟨[some (0, 2)]⟩⟩, ⟨[97, 98, 99], false, false⟩) :=
  C1_complete_offset0_match digitsRe ⟨[52, 50, 97, 98, 99], false, false⟩ 2
    ⟨[some (0, 2)]⟩ rfl rfl

/-- C2: when the engine finds no match, or only a match starting after
offset 0, the attempt is classified no-anchored-match: `incomplete` when the
stream is partial-capable and currently incomplete, `noMatch` otherwise; in
both cases the stream is unchanged and no match is accepted. -/
theorem C2_no_anchored_match (re : RegexModel α) (input : Stream α)
    (h : ∀ s e locs, re.captures_read input.buf = some ((s, e), locs) → s ≠ 0) :
    CapturesParser.parse_next re input =
      (if input.partialSupported && input.isIncomplete then (.error .incomplete, input)
       else (.error .noMatch, input)) ∧
    RegexParser.parse_next re input =
      (if input.partialSupported && input.isIncomplete then (.error .incomplete, input)
       else (.error .noMatch, input)) := by
  have himpl := captures_impl_no_anchor input.partialSupported re input h
  rw [captures_parse_next_eq, regex_parse_next_eq, himpl]
  by_cases hc : (input.partialSupported && input.isIncomplete) = true <;>
    simp [hc, Except.map]

/-- Witness for C2 at specification scenario 2: the digit pattern on the
complete input "abc42" fails definitively with the stream unchanged. -/
theorem C2_no_anchored_match_witness :
    CapturesParser.parse_next digitsRe ⟨[97, 98, 99, 52, 50], false, false⟩ =
      (.error .noMatch, ⟨[97, 98, 99, 52, 50], false, false⟩) ∧
    RegexParser.parse_next digitsRe ⟨[97, 98, 99, 52, 50], false, false⟩ =
      (.error .noMatch, ⟨[97, 98, 99, 52, 50], false, false⟩) := by
  have h := C2_no_anchored_match digitsRe ⟨[97, 98, 99, 52, 50], false, false⟩
    (by
      intro s e locs hm
      rw [show digitsRe.captures_read [97, 98, 99, 52, 50] =
        some ((3, 5), ⟨[some (3, 5)]⟩) from rfl] at hm
      simp at hm
      omega)
  simpa using h

/-- C3: on a partial-capable, currently incomplete stream, an offset-0 match
whose end equals the buffered length (including a zero-length match on an
empty buffer) is classified `incomplete` with the stream unchanged. -/
theorem C3_touches_end_incomplete (re : RegexModel α) (input : Stream α)
    (locs : CaptureLocs)
    (hps : input.partialSupported = true) (hinc : input.isIncomplete = true)
    (hm : re.captures_read input.buf = some ((0, input.buf.length), locs)) :
    CapturesParser.parse_next re input = (.error .incomplete, input) ∧
    RegexParser.parse_next re input = (.error .incomplete, input) := by
  have himpl := captures_impl_touches_end re input locs hinc hm
  rw [captures_parse_next_eq, regex_parse_next_eq, hps, himpl]
  exact ⟨rfl, rfl⟩

/-- Witness for C3 at specification scenario 3: the digit pattern on the
partial buffer "123" reports incomplete with the stream unchanged. -/
theorem C3_touches_end_incomplete_witness :
    CapturesParser.parse_next digitsRe ⟨[49, 50, 51], true, true⟩ =
      (.error .incomplete, ⟨[49, 50, 51], true, true⟩) ∧
    RegexParser.parse_next digitsRe ⟨[49, 50, 51], true, true⟩ =
      (.error .incomplete, ⟨[49, 50, 51], true, true⟩) :=
  C3_touches_end_incomplete digitsRe ⟨[49, 50, 51], true, true⟩
    ⟨[some (0, 3)]⟩ rfl rfl rfl

/-- C4: on a partial, currently incomplete buffer, an offset-0 match ending
strictly before the buffered end succeeds exactly as in the complete-input
case: both adapters return `B[0:E]` and advance the stream by `E`. -/
theorem C4_match_strictly_before_end (re : RegexModel α) (input : Stream α)
    (E : Nat) (locs : CaptureLocs)
    (hps : input.partialSupported = true) (hinc : input.isIncomplete = true)
    (hm : re.captures_read input.buf = some ((0, E), locs))
    (hlt : E < input.buf.length) :
    CapturesParser.parse_next re input =
      (.ok { slice := input.buf.take E, locs := locs },
       { input with buf := input.buf.drop E }) ∧
    RegexParser.parse_next re input =
      (.ok (input.buf.take E), { input with buf := input.buf.drop E }) ∧
    (CapturesParser.parse_next re input).1 =
      (CapturesParser.parse_next re
        { input with partialSupported := false, isIncomplete := false }).1 := by
  have hnc : ¬(true = true ∧ input.isIncomplete = true ∧ input.buf.length = E) := by
    rintro ⟨-, -, hlen⟩
    omega
  have himpl := captures_impl_match_ok true re input E locs hm hnc
  have himpl2 := captures_impl_match_ok false re
    { input with partialSupported := false, isIncomplete := false } E locs hm (by simp)
  refine ⟨?_, ?_, ?_⟩
  · rw [captures_parse_next_eq, hps, himpl, hps]
  · rw [regex_parse_next_eq, hps, himpl]
    simp [hps, Except.map]
  · rw [captures_parse_next_eq, hps, himpl,
      captures_parse_next_eq]
    dsimp only
    rw [himpl2]

/-- Witness for C4 at specification scenario 4: the digit pattern on the
partial buffer "123abc" succeeds with "123", leaving "abc". -/
theorem C4_match_strictly_before_end_witness :
    CapturesParser.parse_next digitsRe ⟨[49, 50, 51, 97, 98, 99], true, true⟩ =
      (.ok ⟨[49, 50, 51], ⟨[some (0, 3)]⟩⟩, ⟨[97, 98, 99], true, true⟩) ∧
    RegexParser.parse_next digitsRe ⟨[49, 50, 51, 97, 98, 99], true, true⟩ =
      (.ok [49, 50, 51], ⟨[97, 98, 99], true, true⟩) ∧
    (CapturesParser.parse_next digitsRe ⟨[49, 50, 51, 97, 98, 99], true, true⟩).1 =
      (CapturesParser.parse_next digitsRe ⟨[49, 50, 51, 97, 98, 99], false, false⟩).1 :=
  C4_match_strictly_before_end digitsRe ⟨[49, 50, 51, 97, 98, 99], true, true⟩ 3
    ⟨[some (0, 3)]⟩ rfl rfl rfl (by decide)

/-- C5 (counterexample): in `capsWithGap`, group 1 did not participate while
being in range (1 < group count 2), and index 2 is out of range, yet
`Captures::index` fails identically on both — the single
panic "index out of bounds" — so the two are not separate error conditions
of indexing. -/
theorem C5_counterexample :
    capsWithGap.locs.get 1 = none ∧ 1 < capsWithGap.locs.len ∧
    capsWithGap.locs.len ≤ 2 ∧
    capsWithGap.index 1 = capsWithGap.index 2 :=
  ⟨rfl, by decide, by decide, rfl⟩

/-- C5 (amended): indexing any group whose locations read back `none` —
covering both a non-participating in-range group and any out-of-range
index — fails with one and the same panic "index out of bounds"; the two
conditions are distinguishable only through the capture-locations interface
(`get` together with `len`), not through `index` itself. -/
theorem C5_amended_identical_failure (c : Captures α) (i j : Nat)
    (hi : c.locs.get i = none) (hj : c.locs.len ≤ j) :
    c.index i = .error "index out of bounds" ∧
    c.index j = c.index i := by
  have hgj : c.locs.get j = none := by
    unfold CaptureLocs.get
    rw [List.get?_eq_none.mpr hj]
    rfl
  unfold Captures.index
  rw [hi, hgj]
  exact ⟨rfl, rfl⟩

/-- Witness for the amended C5 on `capsWithGap`. -/
theorem C5_amended_identical_failure_witness :
    capsWithGap.index 1 = .error "index out of bounds" ∧
    capsWithGap.index 2 = capsWithGap.index 1 :=
  C5_amended_identical_failure capsWithGap 1 2 rfl (by decide)

/-- The single-token engine instance satisfies the engine contract. -/
theorem anyTokRe_wf : anyTokRe.WF := by
  intro hay m locs h
  unfold anyTokRe at h
  dsimp only at h
  split at h
  · rename_i hlen
    rw [Option.some.injEq, Prod.mk.injEq] at h
    refine ⟨?_, ?_, ?_⟩
    · rw [← h.2, ← h.1]
      rfl
    · rw [← h.1]
      decide
    · rw [← h.1]
      exact hlen
  · exact absurd h (by simp)

/-- C6: for every successful captures result of the adapter, indexing
group 0 returns the full matched slice, the plain-view conversion also
yields that slice, and the slice is exactly what was consumed from the
stream. -/
theorem C6_group0_full_slice (re : RegexModel α) (input : Stream α)
    (caps : Captures α) (s2 : Stream α) (hwf : re.WF)
    (h : CapturesParser.parse_next re input = (.ok caps, s2)) :
    caps.index 0 = .ok caps.slice ∧ caps.as_ref = caps.slice ∧
    caps.slice ++ s2.buf = input.buf := by
  rw [captures_parse_next_eq] at h
  obtain ⟨stop, hm, hs, hst⟩ := captures_impl_ok_inv _ re input caps s2 h
  obtain ⟨hg0, -, hlen⟩ := hwf _ _ _ hm
  refine ⟨?_, rfl, ?_⟩
  · unfold Captures.index
    rw [hg0]
    dsimp only
    rw [List.drop_zero, Nat.sub_zero]
    have htake : caps.slice.take stop = caps.slice := by
      apply List.take_of_length_le
      rw [hs, List.length_take]
      exact Nat.min_le_left _ _
    rw [htake]
  · rw [hs, hst]
    exact List.take_append_drop stop input.buf

/-- Witness for C6: the single-token pattern on complete input `[52, 50]`
consumes `[52]`; group 0 returns it and the plain view equals it. -/
theorem C6_group0_full_slice_witness :
    (Captures.mk [52] ⟨[some (0, 1)]⟩ : Captures Nat).index 0 = .ok [52] ∧
    (Captures.mk [52] ⟨[some (0, 1)]⟩ : Captures Nat).as_ref = [52] ∧
    ([52] : List Nat) ++ [50] = [52, 50] :=
  C6_group0_full_slice anyTokRe ⟨[52, 50], false, false⟩
    ⟨[52], ⟨[some (0, 1)]⟩⟩ ⟨[50], false, false⟩ anyTokRe_wf rfl

/-- C7: classification is a pure function of the compiled pattern, the
buffered suffix and the partial-mode flags: two invocations of either
adapter against streams agreeing on buffer and flags produce identical
results (same classification, same bounds, same output stream). -/
theorem C7_deterministic (re : RegexModel α) (s1 s2 : Stream α)
    (hb : s1.buf = s2.buf) (hp : s1.partialSupported = s2.partialSupported)
    (hi : s1.isIncomplete = s2.isIncomplete) :
    CapturesParser.parse_next re s1 = CapturesParser.parse_next re s2 ∧
    RegexParser.parse_next re s1 = RegexParser.parse_next re s2 := by
  have hs : s1 = s2 := by
    cases s1
    cases s2
    simp_all
  subst hs
  exact ⟨rfl, rfl⟩

/-- Witness for C7: re-invocation on the unchanged partial buffer "123". -/
theorem C7_deterministic_witness :
    CapturesParser.parse_next digitsRe ⟨[49, 50, 51], true, true⟩ =
      CapturesParser.parse_next digitsRe ⟨[49, 50, 51], true, true⟩ ∧
    RegexParser.parse_next digitsRe ⟨[49, 50, 51], true, true⟩ =
      RegexParser.parse_next digitsRe ⟨[49, 50, 51], true, true⟩ :=
  C7_deterministic digitsRe ⟨[49, 50, 51], true, true⟩ ⟨[49, 50, 51], true, true⟩
    rfl rfl rfl

/-- C8: the matched-span adapter equals the captures adapter followed by
projection to the slice: identical classification outcome (success, noMatch
or incomplete), identical output stream, and on success the span is the
slice component of the captures result. -/
theorem C8_adapters_agree (re : RegexModel α) (input : Stream α) :
    RegexParser.parse_next re input =
      ((CapturesParser.parse_next re input).1.map (fun caps => caps.slice),
       (CapturesParser.parse_next re input).2) :=
  rfl

/-- C9: two compilation tiers: the fallible conversion returns the typed
crate error wrapping the engine diagnostic and otherwise the compiled
matcher; the eager constructors (`regex`/`captures` and the bytes variants)
panic exactly on an engine compilation error; an already-compiled matcher
converts to itself with no failure path. -/
theorem C9_compilation_tiers (compile : String → Except ε (RegexModel α))
    (pat : String) (re0 : RegexModel α) :
    (∀ e, compile pat = .error e →
      str_try_into_regex compile pat = .error (.Regex e) ∧
      regex_ctor compile pat = .panicked "regex compile error" ∧
      bytes_into_regex compile pat =
        .panicked "failed to compile regex for bytes parser") ∧
    (∀ r, compile pat = .ok r →
      str_try_into_regex compile pat = .ok r ∧
      regex_ctor compile pat = .ok r ∧
      bytes_into_regex compile pat = .ok r) ∧
    compiled_try_into_regex ε re0 = .ok re0 := by
  refine ⟨?_, ?_, rfl⟩
  · intro e he
    unfold regex_ctor bytes_into_regex str_try_into_regex
    rw [he]
    exact ⟨rfl, rfl, rfl⟩
  · intro r hr
    unfold regex_ctor bytes_into_regex str_try_into_regex
    rw [hr]
    exact ⟨rfl, rfl, rfl⟩

/-- Witness for C9 on the toy engine compiler: the bad pattern "(" is a
typed error in the fallible tier and a panic in the eager tier; the good
pattern "." compiles; a precompiled matcher converts unchanged. -/
theorem C9_compilation_tiers_witness :
    str_try_into_regex toyCompile "(" = .error (.Regex "regex parse error") ∧
    regex_ctor toyCompile "(" = .panicked "regex compile error" ∧
    bytes_into_regex toyCompile "(" =
      .panicked "failed to compile regex for bytes parser" ∧
    str_try_into_regex toyCompile "." = .ok anyTokRe ∧
    compiled_try_into_regex String anyTokRe = .ok anyTokRe := by
  have h := C9_compilation_tiers toyCompile "(" anyTokRe
  have h2 := C9_compilation_tiers toyCompile "." anyTokRe
  exact ⟨(h.1 "regex parse error" rfl).1, (h.1 "regex parse error" rfl).2.1,
    (h.1 "regex parse error" rfl).2.2, (h2.2.1 anyTokRe rfl).1, h.2.2⟩

/-- C10: a pattern with an offset-0 zero-length match succeeds without
consuming anything whenever the input is complete, or not currently
incomplete, or the partial buffer is non-empty: both adapters return the
empty slice and leave the stream unchanged. -/
theorem C10_empty_match_no_consume (re : RegexModel α) (input : Stream α)
    (locs : CaptureLocs)
    (hm : re.captures_read input.buf = some ((0, 0), locs))
    (hc : input.partialSupported = false ∨ input.isIncomplete = false ∨
      input.buf ≠ []) :
    CapturesParser.parse_next re input =
      (.ok { slice := [], locs := locs }, input) ∧
    RegexParser.parse_next re input = (.ok [], input) := by
  have hnc : ¬(input.partialSupported = true ∧ input.isIncomplete = true ∧
      input.buf.length = 0) := by
    rintro ⟨h1, h2, h3⟩
    rcases hc with hc | hc | hc <;> simp_all [List.length_eq_zero]
  have himpl := captures_impl_match_ok input.partialSupported re input 0 locs hm hnc
  rw [captures_parse_next_eq, regex_parse_next_eq, himpl]
  exact ⟨rfl, rfl⟩

/-- Witness for C10: an empty-match pattern on the non-empty partial
buffer `[7]` succeeds without consuming. -/
theorem C10_empty_match_no_consume_witness :
    CapturesParser.parse_next emptyRe ⟨[7], true, true⟩ =
      (.ok ⟨[], ⟨[some (0, 0)]⟩⟩, ⟨[7], true, true⟩) ∧
    RegexParser.parse_next emptyRe ⟨[7], true, true⟩ =
      (.ok [], ⟨[7], true, true⟩) :=
  C10_empty_match_no_consume emptyRe ⟨[7], true, true⟩ ⟨[some (0, 0)]⟩ rfl
    (Or.inr (Or.inr (by decide)))

end WinnowRegex
